import Mathlib

/-!
Shallow embedding of `src/location.rs` of the Autochez/fork-you repository:
room locations at two schools (Highfield and Fearnhill) and their
`Display`-style rendering to canonical textual identifiers.

Each Rust `impl Display for T` writes a sequence of characters to a
formatter; we embed it as a function `T.render : T → String`, with the
sequential formatter writes becoming string concatenation.  Rust's
`Display` for `u8` (decimal) is embedded as `Nat.repr`, and the format
specifier `{:0>2}` (right-align in a field of width 2, filling with `'0'`
on the left) as `fmtZeroPad2`.

`RangedU8<MIN, MAX>` is used by `location.rs` via `use crate::RangedU8`
but its implementation is not part of the visible source; it is modelled
from the spec's collaborator contract (§4.1).
-/

/-- Modelled from the spec: the single failure kind of the bounded-integer
collaborator `RangedU8` (spec §4.1, §7), raised at construction time when
the supplied value lies outside the declared inclusive bounds. -/
inductive RangedError where
  | OutOfRange
deriving DecidableEq, Repr

/-- Modelled from the spec: `RangedU8<MIN, MAX>`, a bounded integer wrapper
whose stored value is guaranteed to lie in `[MIN, MAX]` (spec §4.1).  The
implementation is not under `src/`; only this contract is visible. -/
structure RangedU8 (MIN MAX : Nat) where
  val : Nat
  isValid : MIN ≤ val ∧ val ≤ MAX

instance {MIN MAX : Nat} : DecidableEq (RangedU8 MIN MAX) := fun a b =>
  if h : a.val = b.val then
    .isTrue (by cases a; cases b; simp_all)
  else
    .isFalse (by intro e; cases e; exact h rfl)

/-- Modelled from the spec: `get() -> underlying integer value`, always
succeeds, returns the stored value unchanged (spec §4.1). -/
def RangedU8.get {MIN MAX : Nat} (r : RangedU8 MIN MAX) : Nat := r.val

/-- Modelled from the spec: `construct(value) -> RangedU8 | fails with
OutOfRange` when `value < MIN` or `value > MAX` (spec §4.1); construction
either succeeds with a fully valid value or fails atomically (spec §7). -/
def RangedU8.construct (MIN MAX value : Nat) :
    Except RangedError (RangedU8 MIN MAX) :=
  if h : MIN ≤ value ∧ value ≤ MAX then
    .ok ⟨value, h⟩
  else
    .error .OutOfRange

/-- `HighfieldBlock` from `location.rs`: a block at the Highfield school. -/
inductive HighfieldBlock where
  | Howard
  | Parker
  | Unwin
deriving DecidableEq, Repr, Fintype

/-- `impl Display for HighfieldBlock` (location.rs lines 14–25):
each block writes its single identifying character. -/
def HighfieldBlock.render : HighfieldBlock → String
  | .Howard => "H"
  | .Parker => "P"
  | .Unwin => "U"

/-- `HighfieldFloor` from `location.rs`: `Ground`, or `Level` holding a
`RangedU8<1, 9>`. -/
inductive HighfieldFloor where
  | Ground
  | Level (level : RangedU8 1 9)
deriving DecidableEq

/-- `impl Display for HighfieldFloor` (location.rs lines 43–52):
`'G'` for the ground floor, the floor number for others. -/
def HighfieldFloor.render : HighfieldFloor → String
  | .Ground => "G"
  | .Level level => Nat.repr level.get

/-- Rust's `{:0>2}` format applied to a decimal value: the decimal
representation right-aligned in a field of width 2, left-filled with
`'0'` (location.rs line 112). -/
def fmtZeroPad2 (n : Nat) : String :=
  let s := Nat.repr n
  ⟨List.replicate (2 - s.length) '0' ++ s.data⟩

/-- `HighfieldRoom` from `location.rs` (non-exhaustive in the source):
`Hall`, `SportsHall`, or a `Classroom` with block, floor and a
`RangedU8<1, 99>` discriminator. -/
inductive HighfieldRoom where
  | Hall
  | SportsHall
  | Classroom (block : HighfieldBlock) (floor : HighfieldFloor)
      (discriminator : RangedU8 1 99)
deriving DecidableEq

/-- `impl Display for HighfieldRoom` (location.rs lines 87–116):
`Hall`, `Sports Hall`, or block ++ floor ++ discriminator padded to two
digits with `{:0>2}`. -/
def HighfieldRoom.render : HighfieldRoom → String
  | .Hall => "Hall"
  | .SportsHall => "Sports Hall"
  | .Classroom block floor discriminator =>
      block.render ++ floor.render ++ fmtZeroPad2 discriminator.get

/-- `FearnhillSection` from `location.rs`: the ten academic sections. -/
inductive FearnhillSection where
  | Science
  | Business
  | PSHE
  | Languages
  | Technology
  | Mathematics
  | English
  | Music
  | Humanities
  | IT
deriving DecidableEq, Repr, Fintype

/-- `impl Display for FearnhillSection` (location.rs lines 135–152). -/
def FearnhillSection.render : FearnhillSection → String
  | .Science => "S"
  | .Business => "B"
  | .PSHE => "P"
  | .Languages => "L"
  | .Technology => "T"
  | .Mathematics => "M"
  | .English => "E"
  | .Music => "Mu"
  | .Humanities => "H"
  | .IT => "I"

/-- `FearnhillRoom` from `location.rs` (non-exhaustive in the source):
four named rooms, or a `Classroom` with section and `RangedU8<1, 99>`
discriminator. -/
inductive FearnhillRoom where
  | SportsHall
  | Gym
  | DanceStudio
  | DramaStudio
  | Classroom (sec : FearnhillSection) (discriminator : RangedU8 1 99)
deriving DecidableEq

/-- `impl Display for FearnhillRoom` (location.rs lines 192–210):
named rooms render to their literal names; a classroom renders its
section followed by the plain decimal of `discriminator.get()`
(`Display` of `u8`, no padding). -/
def FearnhillRoom.render : FearnhillRoom → String
  | .SportsHall => "Sports Hall"
  | .Gym => "Gym"
  | .DanceStudio => "Dance Studio"
  | .DramaStudio => "Drama Studio"
  | .Classroom sec discriminator =>
      sec.render ++ Nat.repr discriminator.get

/-- `Location` from `location.rs`: a room at either school. -/
inductive Location where
  | Highfield (room : HighfieldRoom)
  | Fearnhill (room : FearnhillRoom)
deriving DecidableEq

/-- `impl Display for Location` (location.rs lines 223–238): Highfield
rooms render verbatim; Fearnhill rooms are prefixed with `"FH "` for
disambiguation. -/
def Location.render : Location → String
  | .Highfield room => room.render
  | .Fearnhill room => "FH " ++ room.render

/-! ### Helper facts about decimal rendering, established by bounded
kernel evaluation over the relevant ranges. -/

theorem RangedU8.ext {MIN MAX : Nat} {a b : RangedU8 MIN MAX}
    (h : a.val = b.val) : a = b := by
  cases a; cases b; simp_all

theorem fmtZeroPad2_data : ∀ d, d < 100 →
    (fmtZeroPad2 d).data = [Nat.digitChar (d / 10), Nat.digitChar (d % 10)] := by
  decide

theorem repr_data_lt100 : ∀ d, d < 100 →
    (Nat.repr d).data =
      if d < 10 then [Nat.digitChar d]
      else [Nat.digitChar (d / 10), Nat.digitChar (d % 10)] := by
  decide

theorem repr_head_isDigit : ∀ d, d < 100 →
    ((Nat.repr d).data.headD 'x').isDigit = true := by
  decide

theorem digitChar_inj : ∀ a, a < 10 → ∀ b, b < 10 →
    Nat.digitChar a = Nat.digitChar b → a = b := by
  decide

theorem digitChar_isDigit : ∀ a, a < 10 → (Nat.digitChar a).isDigit = true := by
  decide

/-! ### Data-list normal forms for the renderers. -/

/-- The single character written by `Display for HighfieldBlock`. -/
def blockChar : HighfieldBlock → Char
  | .Howard => 'H'
  | .Parker => 'P'
  | .Unwin => 'U'

/-- The single character written by `Display for HighfieldFloor`. -/
def floorChar : HighfieldFloor → Char
  | .Ground => 'G'
  | .Level level => Nat.digitChar level.val

/-- The first character written by `Display for FearnhillSection`. -/
def secHead : FearnhillSection → Char
  | .Science => 'S'
  | .Business => 'B'
  | .PSHE => 'P'
  | .Languages => 'L'
  | .Technology => 'T'
  | .Mathematics => 'M'
  | .English => 'E'
  | .Music => 'M'
  | .Humanities => 'H'
  | .IT => 'I'

/-- The characters written by `Display for FearnhillSection` after the
first one (only Music writes a second character). -/
def secTail : FearnhillSection → List Char
  | .Music => ['u']
  | _ => []

theorem block_render_data (b : HighfieldBlock) :
    b.render.data = [blockChar b] := by
  cases b <;> rfl

theorem floor_render_data (f : HighfieldFloor) :
    f.render.data = [floorChar f] := by
  cases f with
  | Ground => rfl
  | Level level =>
      have h10 : level.val < 10 := by
        have := level.isValid.2; omega
      show (Nat.repr level.val).data = [Nat.digitChar level.val]
      rw [repr_data_lt100 level.val (by omega), if_pos h10]

theorem floorChar_cases (f : HighfieldFloor) :
    floorChar f = 'G' ∨ (floorChar f).isDigit = true := by
  cases f with
  | Ground => exact Or.inl rfl
  | Level level =>
      refine Or.inr (digitChar_isDigit level.val ?_)
      have := level.isValid.2; omega

theorem sec_render_data (s : FearnhillSection) :
    s.render.data = secHead s :: secTail s := by
  cases s <;> rfl

theorem hfClassroom_data (b : HighfieldBlock) (f : HighfieldFloor)
    (d : RangedU8 1 99) :
    (HighfieldRoom.Classroom b f d).render.data =
      [blockChar b, floorChar f,
        Nat.digitChar (d.val / 10), Nat.digitChar (d.val % 10)] := by
  show (b.render ++ f.render ++ fmtZeroPad2 d.val).data = _
  rw [String.data_append, String.data_append, block_render_data,
    floor_render_data, fmtZeroPad2_data d.val (by have := d.isValid.2; omega)]
  rfl

theorem fhClassroom_data (s : FearnhillSection) (d : RangedU8 1 99) :
    (FearnhillRoom.Classroom s d).render.data =
      secHead s :: (secTail s ++ (Nat.repr d.val).data) := by
  show (s.render ++ Nat.repr d.val).data = _
  rw [String.data_append, sec_render_data]
  rfl

/-! ### Injectivity of the component renderers. -/

theorem blockChar_inj : ∀ b₁ b₂ : HighfieldBlock,
    blockChar b₁ = blockChar b₂ → b₁ = b₂ := by
  decide

theorem floorChar_inj (f₁ f₂ : HighfieldFloor)
    (h : floorChar f₁ = floorChar f₂) : f₁ = f₂ := by
  cases f₁ with
  | Ground =>
      cases f₂ with
      | Ground => rfl
      | Level l₂ =>
          exfalso
          simp only [floorChar] at h
          have h10 : l₂.val < 10 := by have := l₂.isValid.2; omega
          have := digitChar_isDigit l₂.val h10
          rw [← h] at this
          exact absurd this (by decide)
  | Level l₁ =>
      cases f₂ with
      | Ground =>
          exfalso
          simp only [floorChar] at h
          have h10 : l₁.val < 10 := by have := l₁.isValid.2; omega
          have := digitChar_isDigit l₁.val h10
          rw [h] at this
          exact absurd this (by decide)
      | Level l₂ =>
          simp only [floorChar] at h
          have h1 : l₁.val < 10 := by have := l₁.isValid.2; omega
          have h2 : l₂.val < 10 := by have := l₂.isValid.2; omega
          have := digitChar_inj l₁.val h1 l₂.val h2 h
          rw [RangedU8.ext this]

theorem repr_inj_lt100 (d₁ d₂ : Nat) (h₁ : d₁ < 100) (h₂ : d₂ < 100)
    (h : (Nat.repr d₁).data = (Nat.repr d₂).data) : d₁ = d₂ := by
  rw [repr_data_lt100 d₁ h₁, repr_data_lt100 d₂ h₂] at h
  by_cases c₁ : d₁ < 10 <;> by_cases c₂ : d₂ < 10 <;>
    simp [c₁, c₂] at h
  · exact digitChar_inj d₁ c₁ d₂ c₂ h
  · have e₁ := digitChar_inj (d₁ / 10) (by omega) (d₂ / 10) (by omega) h.1
    have e₂ := digitChar_inj (d₁ % 10) (by omega) (d₂ % 10) (by omega) h.2
    omega

theorem secHead_classify : ∀ s₁ s₂ : FearnhillSection,
    secHead s₁ = secHead s₂ →
      s₁ = s₂ ∨ (s₁ = .Mathematics ∧ s₂ = .Music) ∨
        (s₁ = .Music ∧ s₂ = .Mathematics) := by
  decide

theorem secHead_eq_S : ∀ s : FearnhillSection,
    secHead s = 'S' → s = .Science := by
  decide

theorem secHead_ne_GD : ∀ s : FearnhillSection,
    secHead s ≠ 'G' ∧ secHead s ≠ 'D' := by
  decide

theorem blockChar_ne_F : ∀ b : HighfieldBlock, blockChar b ≠ 'F' := by
  decide

/-! ### Injectivity of the room and location renderers. -/

theorem hfRoom_render_inj (x y : HighfieldRoom)
    (h : x.render = y.render) : x = y := by
  have hd := congrArg String.data h
  cases x with
  | Hall =>
      cases y with
      | Hall => rfl
      | SportsHall => exact absurd h (by decide)
      | Classroom b f d =>
          exfalso
          rw [hfClassroom_data] at hd
          have hd' : (['H', 'a', 'l', 'l'] : List Char) =
              [blockChar b, floorChar f, Nat.digitChar (d.val / 10),
                Nat.digitChar (d.val % 10)] := hd
          simp only [List.cons.injEq] at hd'
          rcases floorChar_cases f with hg | hdig
          · rw [hg] at hd'
            exact absurd hd'.2.1 (by decide)
          · rw [← hd'.2.1] at hdig
            exact absurd hdig (by decide)
  | SportsHall =>
      cases y with
      | Hall => exact absurd h (by decide)
      | SportsHall => rfl
      | Classroom b f d =>
          exfalso
          rw [hfClassroom_data] at hd
          have hl := congrArg List.length hd
          have hl' : (11 : Nat) = 4 := hl
          exact absurd hl' (by decide)
  | Classroom b₁ f₁ d₁ =>
      cases y with
      | Hall =>
          exfalso
          rw [hfClassroom_data] at hd
          have hd' : [blockChar b₁, floorChar f₁, Nat.digitChar (d₁.val / 10),
              Nat.digitChar (d₁.val % 10)] = (['H', 'a', 'l', 'l'] : List Char) := hd
          simp only [List.cons.injEq] at hd'
          rcases floorChar_cases f₁ with hg | hdig
          · rw [hg] at hd'
            exact absurd hd'.2.1 (by decide)
          · rw [hd'.2.1] at hdig
            exact absurd hdig (by decide)
      | SportsHall =>
          exfalso
          rw [hfClassroom_data] at hd
          have hl := congrArg List.length hd
          have hl' : (4 : Nat) = 11 := hl
          exact absurd hl' (by decide)
      | Classroom b₂ f₂ d₂ =>
          rw [hfClassroom_data, hfClassroom_data] at hd
          simp only [List.cons.injEq, and_true] at hd
          obtain ⟨hb, hf, hq, hr⟩ := hd
          have hbv := blockChar_inj b₁ b₂ hb
          have hfv := floorChar_inj f₁ f₂ hf
          have hd₁ := d₁.isValid
          have hd₂ := d₂.isValid
          have e₁ := digitChar_inj (d₁.val / 10) (by omega)
            (d₂.val / 10) (by omega) hq
          have e₂ := digitChar_inj (d₁.val % 10) (by omega)
            (d₂.val % 10) (by omega) hr
          have : d₁.val = d₂.val := by omega
          rw [hbv, hfv, RangedU8.ext this]

theorem sportsHall_render_ne_classroom (s : FearnhillSection)
    (d : RangedU8 1 99) :
    FearnhillRoom.SportsHall.render ≠ (FearnhillRoom.Classroom s d).render := by
  intro h
  have hd := congrArg String.data h
  rw [fhClassroom_data] at hd
  have hd' : ('S' :: ['p', 'o', 'r', 't', 's', ' ', 'H', 'a', 'l', 'l']) =
      secHead s :: (secTail s ++ (Nat.repr d.val).data) := hd
  injection hd' with h1 h2
  have hs := secHead_eq_S s h1.symm
  subst hs
  have h2' : (['p', 'o', 'r', 't', 's', ' ', 'H', 'a', 'l', 'l'] : List Char) =
      (Nat.repr d.val).data := h2
  have hh := repr_head_isDigit d.val (by have := d.isValid.2; omega)
  rw [← h2'] at hh
  exact absurd hh (by decide)

theorem gym_render_ne_classroom (s : FearnhillSection) (d : RangedU8 1 99) :
    FearnhillRoom.Gym.render ≠ (FearnhillRoom.Classroom s d).render := by
  intro h
  have hd := congrArg String.data h
  rw [fhClassroom_data] at hd
  have hd' : ('G' :: ['y', 'm']) =
      secHead s :: (secTail s ++ (Nat.repr d.val).data) := hd
  injection hd' with h1 h2
  exact absurd h1.symm (secHead_ne_GD s).1

theorem dance_render_ne_classroom (s : FearnhillSection) (d : RangedU8 1 99) :
    FearnhillRoom.DanceStudio.render ≠ (FearnhillRoom.Classroom s d).render := by
  intro h
  have hd := congrArg String.data h
  rw [fhClassroom_data] at hd
  have hd' : ('D' :: ['a', 'n', 'c', 'e', ' ', 'S', 't', 'u', 'd', 'i', 'o']) =
      secHead s :: (secTail s ++ (Nat.repr d.val).data) := hd
  injection hd' with h1 h2
  exact absurd h1.symm (secHead_ne_GD s).2

theorem drama_render_ne_classroom (s : FearnhillSection) (d : RangedU8 1 99) :
    FearnhillRoom.DramaStudio.render ≠ (FearnhillRoom.Classroom s d).render := by
  intro h
  have hd := congrArg String.data h
  rw [fhClassroom_data] at hd
  have hd' : ('D' :: ['r', 'a', 'm', 'a', ' ', 'S', 't', 'u', 'd', 'i', 'o']) =
      secHead s :: (secTail s ++ (Nat.repr d.val).data) := hd
  injection hd' with h1 h2
  exact absurd h1.symm (secHead_ne_GD s).2

theorem fhRoom_render_inj (x y : FearnhillRoom)
    (h : x.render = y.render) : x = y := by
  cases x with
  | SportsHall =>
      cases y with
      | SportsHall => rfl
      | Gym => exact absurd h (by decide)
      | DanceStudio => exact absurd h (by decide)
      | DramaStudio => exact absurd h (by decide)
      | Classroom s d => exact absurd h (sportsHall_render_ne_classroom s d)
  | Gym =>
      cases y with
      | SportsHall => exact absurd h (by decide)
      | Gym => rfl
      | DanceStudio => exact absurd h (by decide)
      | DramaStudio => exact absurd h (by decide)
      | Classroom s d => exact absurd h (gym_render_ne_classroom s d)
  | DanceStudio =>
      cases y with
      | SportsHall => exact absurd h (by decide)
      | Gym => exact absurd h (by decide)
      | DanceStudio => rfl
      | DramaStudio => exact absurd h (by decide)
      | Classroom s d => exact absurd h (dance_render_ne_classroom s d)
  | DramaStudio =>
      cases y with
      | SportsHall => exact absurd h (by decide)
      | Gym => exact absurd h (by decide)
      | DanceStudio => exact absurd h (by decide)
      | DramaStudio => rfl
      | Classroom s d => exact absurd h (drama_render_ne_classroom s d)
  | Classroom s₁ d₁ =>
      cases y with
      | SportsHall => exact absurd h.symm (sportsHall_render_ne_classroom s₁ d₁)
      | Gym => exact absurd h.symm (gym_render_ne_classroom s₁ d₁)
      | DanceStudio => exact absurd h.symm (dance_render_ne_classroom s₁ d₁)
      | DramaStudio => exact absurd h.symm (drama_render_ne_classroom s₁ d₁)
      | Classroom s₂ d₂ =>
          have hd := congrArg String.data h
          rw [fhClassroom_data, fhClassroom_data] at hd
          injection hd with h1 h2
          rcases secHead_classify s₁ s₂ h1 with hss | ⟨e1, e2⟩ | ⟨e1, e2⟩
          · subst hss
            have hR := List.append_cancel_left h2
            have hv := repr_inj_lt100 d₁.val d₂.val
              (by have := d₁.isValid.2; omega)
              (by have := d₂.isValid.2; omega) hR
            rw [RangedU8.ext hv]
          · subst e1; subst e2
            exfalso
            have h2' : (Nat.repr d₁.val).data =
                'u' :: (Nat.repr d₂.val).data := h2
            have hh := repr_head_isDigit d₁.val (by have := d₁.isValid.2; omega)
            rw [h2'] at hh
            have hu : (('u' :: (Nat.repr d₂.val).data).headD 'x') = 'u' := rfl
            rw [hu] at hh
            exact absurd hh (by decide)
          · subst e1; subst e2
            exfalso
            have h2' : 'u' :: (Nat.repr d₁.val).data =
                (Nat.repr d₂.val).data := h2
            have hh := repr_head_isDigit d₂.val (by have := d₂.isValid.2; omega)
            rw [← h2'] at hh
            have hu : (('u' :: (Nat.repr d₁.val).data).headD 'x') = 'u' := rfl
            rw [hu] at hh
            exact absurd hh (by decide)

theorem hfRoom_head_ne_F (r : HighfieldRoom) :
    r.render.data.headD 'x' ≠ 'F' := by
  cases r with
  | Hall => decide
  | SportsHall => decide
  | Classroom b f d =>
      rw [hfClassroom_data]
      have hu : ([blockChar b, floorChar f, Nat.digitChar (d.val / 10),
          Nat.digitChar (d.val % 10)].headD 'x') = blockChar b := rfl
      rw [hu]
      exact blockChar_ne_F b

theorem location_render_inj (x y : Location)
    (h : x.render = y.render) : x = y := by
  cases x with
  | Highfield r₁ =>
      cases y with
      | Highfield r₂ => rw [hfRoom_render_inj r₁ r₂ h]
      | Fearnhill r₂ =>
          exfalso
          have hd := congrArg String.data h
          rw [show (Location.Highfield r₁).render = r₁.render from rfl,
            show (Location.Fearnhill r₂).render = "FH " ++ r₂.render from rfl,
            String.data_append] at hd
          have hh := hfRoom_head_ne_F r₁
          rw [hd] at hh
          exact hh rfl
  | Fearnhill r₁ =>
      cases y with
      | Highfield r₂ =>
          exfalso
          have hd := congrArg String.data h
          rw [show (Location.Fearnhill r₁).render = "FH " ++ r₁.render from rfl,
            show (Location.Highfield r₂).render = r₂.render from rfl,
            String.data_append] at hd
          have hh := hfRoom_head_ne_F r₂
          rw [← hd] at hh
          exact hh rfl
      | Fearnhill r₂ =>
          have hd := congrArg String.data h
          rw [show (Location.Fearnhill r₁).render = "FH " ++ r₁.render from rfl,
            show (Location.Fearnhill r₂).render = "FH " ++ r₂.render from rfl,
            String.data_append, String.data_append] at hd
          have hR := List.append_cancel_left hd
          rw [fhRoom_render_inj r₁ r₂ (String.ext hR)]

/-! ### Further helper facts used by the claim theorems. -/

theorem padSpec_data (n : Nat) (h100 : n < 100) :
    (if n < 10 then "0" ++ Nat.repr n else Nat.repr n).data =
      [Nat.digitChar (n / 10), Nat.digitChar (n % 10)] := by
  by_cases hc : n < 10
  · rw [if_pos hc, String.data_append, repr_data_lt100 n h100, if_pos hc]
    have h0 : n / 10 = 0 := by omega
    have h1 : n % 10 = n := by omega
    rw [h0, h1]
    rfl
  · rw [if_neg hc, repr_data_lt100 n h100, if_neg hc]

theorem repr_head_ne_zero : ∀ n, 1 ≤ n → n < 100 →
    (Nat.repr n).data.headD 'x' ≠ '0' := by
  decide

theorem repr_length_one : ∀ n, 1 ≤ n → n < 10 →
    (Nat.repr n).length = 1 := by
  decide

/-! ### The claim theorems. -/

/-- Claim C1: every Highfield classroom renders as the block's single
letter (Howard → "H", Parker → "P", Unwin → "U"), then the floor's
character (Ground → "G", Level(n) → the single decimal digit of n), then
the discriminator's decimal value left-padded with '0' to width 2. -/
theorem C1_highfield_classroom_render (b : HighfieldBlock)
    (f : HighfieldFloor) (d : RangedU8 1 99) :
    (HighfieldRoom.Classroom b f d).render =
      (match b with
        | .Howard => "H"
        | .Parker => "P"
        | .Unwin => "U") ++
      (match f with
        | .Ground => "G"
        | .Level n => String.singleton (Nat.digitChar n.val)) ++
      (if d.val < 10 then "0" ++ Nat.repr d.val else Nat.repr d.val) := by
  apply String.ext
  rw [hfClassroom_data, String.data_append, String.data_append,
    padSpec_data d.val (by have := d.isValid.2; omega)]
  cases b <;> cases f <;> rfl

/-- Claim C2: every Fearnhill room renders as "Sports Hall", "Gym",
"Dance Studio" or "Drama Studio" for the named rooms, and as the
section's fixed code (Science "S", Business "B", PSHE "P", Languages
"L", Technology "T", Mathematics "M", English "E", Music "Mu",
Humanities "H", IT "I") followed by the plain decimal of the
discriminator, with no zero-padding, for classrooms. -/
theorem C2_fearnhill_room_render :
    FearnhillRoom.SportsHall.render = "Sports Hall" ∧
    FearnhillRoom.Gym.render = "Gym" ∧
    FearnhillRoom.DanceStudio.render = "Dance Studio" ∧
    FearnhillRoom.DramaStudio.render = "Drama Studio" ∧
    ∀ (s : FearnhillSection) (d : RangedU8 1 99),
      (FearnhillRoom.Classroom s d).render =
        (match s with
          | .Science => "S"
          | .Business => "B"
          | .PSHE => "P"
          | .Languages => "L"
          | .Technology => "T"
          | .Mathematics => "M"
          | .English => "E"
          | .Music => "Mu"
          | .Humanities => "H"
          | .IT => "I") ++ Nat.repr d.val := by
  refine ⟨rfl, rfl, rfl, rfl, ?_⟩
  intro s d
  cases s <;> rfl

/-- Claim C3: rendering `Location.Highfield room` yields exactly the
rendering of `room` with no prefix added, and rendering
`Location.Fearnhill room` yields the literal "FH " immediately followed
by the rendering of `room`. -/
theorem C3_location_render (hr : HighfieldRoom) (fr : FearnhillRoom) :
    (Location.Highfield hr).render = hr.render ∧
    (Location.Fearnhill fr).render = "FH " ++ fr.render :=
  ⟨rfl, rfl⟩

/-- Claim C4: rendering of `Location` is injective — distinct locations
render to distinct strings; in particular the two schools' sports halls
never collide textually. -/
theorem C4_render_injective :
    (∀ x y : Location, x ≠ y → x.render ≠ y.render) ∧
    (Location.Highfield HighfieldRoom.SportsHall).render ≠
      (Location.Fearnhill FearnhillRoom.SportsHall).render := by
  constructor
  · intro x y hxy hr
    exact hxy (location_render_inj x y hr)
  · decide

/-- Witness for C4 at a concrete pair of distinct locations. -/
theorem C4_render_injective_witness :
    (Location.Highfield HighfieldRoom.Hall).render ≠
      (Location.Fearnhill FearnhillRoom.Gym).render :=
  C4_render_injective.1 _ _ (by decide)

/-- Claim C5: the spec's concrete interface vectors render bit-exact
(using the spec's own corrected value "P327" for the Parker row). -/
theorem C5_interface_vectors :
    (Location.Highfield HighfieldRoom.Hall).render = "Hall" ∧
    (Location.Highfield HighfieldRoom.SportsHall).render = "Sports Hall" ∧
    (Location.Highfield (HighfieldRoom.Classroom .Howard .Ground
      ⟨5, by omega⟩)).render = "HG05" ∧
    (Location.Highfield (HighfieldRoom.Classroom .Parker
      (.Level ⟨3, by omega⟩) ⟨27, by omega⟩)).render = "P327" ∧
    (Location.Fearnhill FearnhillRoom.SportsHall).render = "FH Sports Hall" ∧
    (Location.Fearnhill (FearnhillRoom.Classroom .Music
      ⟨4, by omega⟩)).render = "FH Mu4" ∧
    (Location.Fearnhill (FearnhillRoom.Classroom .Science
      ⟨12, by omega⟩)).render = "FH S12" := by
  decide

/-- Claim C6: the discriminator portion of a rendered Highfield
classroom is always exactly two digits (zero-padded), while the
discriminator portion of a rendered Fearnhill classroom is never
zero-padded (it never starts with '0', and is a single digit for values
1–9). -/
theorem C6_discriminator_padding (b : HighfieldBlock) (f : HighfieldFloor)
    (d : RangedU8 1 99) (s : FearnhillSection) (e : RangedU8 1 99) :
    ((HighfieldRoom.Classroom b f d).render =
        b.render ++ f.render ++ fmtZeroPad2 d.val ∧
      (fmtZeroPad2 d.val).length = 2 ∧
      ∀ c ∈ (fmtZeroPad2 d.val).data, c.isDigit = true) ∧
    ((FearnhillRoom.Classroom s e).render = s.render ++ Nat.repr e.val ∧
      (Nat.repr e.val).data.headD 'x' ≠ '0' ∧
      (e.val ≤ 9 → (Nat.repr e.val).length = 1)) := by
  have hd := d.isValid
  have he := e.isValid
  refine ⟨⟨rfl, ?_, ?_⟩, rfl, ?_, ?_⟩
  · show (fmtZeroPad2 d.val).data.length = 2
    rw [fmtZeroPad2_data d.val (by omega)]
    rfl
  · intro c hc
    rw [fmtZeroPad2_data d.val (by omega)] at hc
    simp only [List.mem_cons, List.not_mem_nil, or_false] at hc
    rcases hc with hc | hc
    · rw [hc]; exact digitChar_isDigit (d.val / 10) (by omega)
    · rw [hc]; exact digitChar_isDigit (d.val % 10) (by omega)
  · exact repr_head_ne_zero e.val (by omega) (by omega)
  · intro h9
    exact repr_length_one e.val (by omega) (by omega)

/-- Witness for C6 at concrete discriminators (padded two-digit
Highfield portion for `d = 7`, single-digit Fearnhill portion for
`e = 5`). -/
theorem C6_discriminator_padding_witness :
    (fmtZeroPad2 7).length = 2 ∧ (Nat.repr 5).length = 1 :=
  ⟨(C6_discriminator_padding .Howard .Ground ⟨7, by omega⟩ .Science
      ⟨5, by omega⟩).1.2.1,
    (C6_discriminator_padding .Howard .Ground ⟨7, by omega⟩ .Science
      ⟨5, by omega⟩).2.2.2 (by decide)⟩

/-- Claim C7: for the bounded-integer collaborator `RangedU8 MIN MAX`
(modelled from the spec, its implementation not being part of the
visible source), construction succeeds exactly on values in
`[MIN, MAX]`, returning the value unchanged through `get`, and fails
with `OutOfRange` — the only failure kind — on all other values, with
nothing partially built. -/
theorem C7_rangedU8_construct (MIN MAX value : Nat) :
    (MIN ≤ value → value ≤ MAX →
      ∃ r : RangedU8 MIN MAX,
        RangedU8.construct MIN MAX value = .ok r ∧ r.get = value) ∧
    (value < MIN ∨ MAX < value →
      RangedU8.construct MIN MAX value = .error .OutOfRange) := by
  constructor
  · intro h1 h2
    refine ⟨⟨value, h1, h2⟩, ?_, rfl⟩
    simp only [RangedU8.construct]
    rw [dif_pos ⟨h1, h2⟩]
  · intro h
    simp only [RangedU8.construct]
    rw [dif_neg (by omega)]

/-- Witness for C7: construction succeeds at `5 ∈ [1, 99]` and fails at
`100 ∉ [1, 99]`. -/
theorem C7_rangedU8_construct_witness :
    (∃ r : RangedU8 1 99,
      RangedU8.construct 1 99 5 = .ok r ∧ r.get = 5) ∧
    RangedU8.construct 1 99 100 = .error .OutOfRange :=
  ⟨(C7_rangedU8_construct 1 99 5).1 (by decide) (by decide),
    (C7_rangedU8_construct 1 99 100).2 (Or.inr (by decide))⟩

/-- Claim C8: rendering is deterministic and pure — rendering equal
values (of `Location` or of each room sub-type), or the same value
twice, yields identical strings; the embedding of the source as plain
functions reflects that the Rust `Display` impls read nothing but the
value itself. -/
theorem C8_render_deterministic (x y : Location) (hxy : x = y)
    (hr₁ hr₂ : HighfieldRoom) (hh : hr₁ = hr₂)
    (fr₁ fr₂ : FearnhillRoom) (hf : fr₁ = fr₂) :
    x.render = y.render ∧ x.render = x.render ∧
      hr₁.render = hr₂.render ∧ fr₁.render = fr₂.render :=
  ⟨congrArg Location.render hxy, rfl,
    congrArg HighfieldRoom.render hh, congrArg FearnhillRoom.render hf⟩

/-- Witness for C8 at concrete equal values. -/
theorem C8_render_deterministic_witness :
    (Location.Highfield HighfieldRoom.Hall).render =
      (Location.Highfield HighfieldRoom.Hall).render :=
  (C8_render_deterministic (Location.Highfield HighfieldRoom.Hall)
    (Location.Highfield HighfieldRoom.Hall) rfl
    HighfieldRoom.Hall HighfieldRoom.Hall rfl
    FearnhillRoom.Gym FearnhillRoom.Gym rfl).1

/-- Claim C9: every rendered Highfield classroom identifier is exactly
4 characters long — one block letter, one floor character, two
discriminator digits. -/
theorem C9_highfield_classroom_length (b : HighfieldBlock)
    (f : HighfieldFloor) (d : RangedU8 1 99) :
    (HighfieldRoom.Classroom b f d).render.length = 4 := by
  show (HighfieldRoom.Classroom b f d).render.data.length = 4
  rw [hfClassroom_data]
  rfl

/-- Claim C10: a rendered `Location` string begins with "FH " exactly
when the location is a Fearnhill variant, so the school is always
recoverable from the rendered string. -/
theorem C10_fh_iff_fearnhill (l : Location) :
    (∃ s, l.render = "FH " ++ s) ↔ ∃ r, l = Location.Fearnhill r := by
  constructor
  · rintro ⟨s, hs⟩
    cases l with
    | Fearnhill r => exact ⟨r, rfl⟩
    | Highfield r =>
        exfalso
        have hd := congrArg String.data hs
        rw [show (Location.Highfield r).render = r.render from rfl,
          String.data_append] at hd
        have hh := hfRoom_head_ne_F r
        rw [hd] at hh
        exact hh rfl
  · rintro ⟨r, rfl⟩
    exact ⟨r.render, rfl⟩
